import Mathlib

/-!
Verification of the loan amortization and payment-application core of the
`sharedata` lending tracker.

The source is `src/Dashboard.tsx`: the pure EMI formula `computeEmi`
(lines 517-523), the borrower-creation validation in `addBorrower`
(lines 610-621), and the per-payment state transition `handlePayment`
(lines 106-183).  JavaScript numbers are modelled as exact rationals `ℚ`,
tenures and installment counts as integers `ℤ`, and calendar dates as
(year, month, day) triples; time-of-day and timezone are abstracted away,
and `Date.setMonth` is modelled by its calendar semantics on valid dates.
-/

deriving instance DecidableEq for Except

namespace ShareData

/-- A calendar date, modelling the (year, month 1..12, day 1..31) components
of a JavaScript `Date`. -/
structure Date where
  year : ℤ
  month : ℤ
  day : ℤ
  deriving DecidableEq, Repr

/-- Gregorian leap-year test, as JavaScript `Date` uses. -/
def isLeapYear (y : ℤ) : Bool :=
  (y % 4 == 0 && y % 100 != 0) || (y % 400 == 0)

/-- Number of days in month `m` (1..12) of year `y`. -/
def daysInMonth (y m : ℤ) : ℤ :=
  if m = 2 then (if isLeapYear y then 29 else 28)
  else if m = 4 ∨ m = 6 ∨ m = 9 ∨ m = 11 then 30
  else 31

/-- The (year, month) pair one month after the given one. -/
def monthSucc (y m : ℤ) : ℤ × ℤ :=
  if m = 12 then (y + 1, 1) else (y, m + 1)

/-- `d.setMonth(d.getMonth() + 1)` from `handlePayment` (Dashboard.tsx
lines 139-140), by JavaScript `Date` semantics on valid dates: the month
index advances by one (rolling the year), the day-of-month is kept, and a
day past the end of the target month overflows into the following month by
the excess (e.g. Jan 31 becomes Mar 2 or Mar 3, never Feb 28/29). -/
def addOneMonthJS (d : Date) : Date :=
  let y := (monthSucc d.year d.month).1
  let m := (monthSucc d.year d.month).2
  if d.day ≤ daysInMonth y m then ⟨y, m, d.day⟩
  else ⟨(monthSucc y m).1, (monthSucc y m).2, d.day - daysInMonth y m⟩

/-- `computeEmi` from Dashboard.tsx lines 517-523:
```
if (!tenure || tenure <= 0) return 0;
const monthlyRate = rate / (12 * 100);
if (monthlyRate === 0) return principal / tenure;
const pow = Math.pow(1 + monthlyRate, tenure);
return (principal * monthlyRate * pow) / (pow - 1);
```
over exact rationals (`!tenure` and `tenure <= 0` together are `tenure ≤ 0`
on integer tenures). -/
def computeEmi (principal rate : ℚ) (tenure : ℤ) : ℚ :=
  if tenure ≤ 0 then 0
  else
    let monthlyRate := rate / (12 * 100)
    if monthlyRate = 0 then principal / (tenure : ℚ)
    else
      let pow := (1 + monthlyRate) ^ tenure
      principal * monthlyRate * pow / (pow - 1)

/-- Loan lifecycle status (`'active' | 'completed'`). -/
inductive LoanStatus where
  | active
  | completed
  deriving DecidableEq, Repr

/-- The loan fields `handlePayment` reads and writes.  `paidInstallments`
is the `installmentsPaid[loanId] || 0` counter (synced from the loan
record); `nextDueDate` is `null`able. -/
structure Loan where
  tenure : ℤ
  interestRate : ℚ
  emiAmount : ℚ
  remainingPrincipal : ℚ
  paidInstallments : ℤ
  nextDueDate : Option Date
  createdAt : Date
  status : LoanStatus
  deriving DecidableEq, Repr

/-- The rejection `handlePayment` reports when the loan is already fully
paid (the "Loan Completed" early return). -/
inductive PayError where
  | loanAlreadyCompleted
  deriving DecidableEq, Repr

/-- `handlePayment` from Dashboard.tsx lines 106-183, as the pure state
transition it performs on the loan snapshot: reject when
`alreadyPaid >= tenure`; otherwise split the fixed EMI into interest
(`remainingPrincipal * interestRate/1200`) and principal, clamp the new
balance at zero, increment the installment count, advance the due date by
one month from `nextDueDate` (or `createdAt` when absent), and mark the
loan completed exactly when the new count reaches the tenure (the due date
is cleared to `null` in that case). -/
def handlePayment (loan : Loan) : Except PayError Loan :=
  if loan.tenure ≤ loan.paidInstallments then
    Except.error PayError.loanAlreadyCompleted
  else
    let monthlyRate := loan.interestRate / 1200
    let interestPaid := loan.remainingPrincipal * monthlyRate
    let principalPaid := loan.emiAmount - interestPaid
    let newPrincipal := max 0 (loan.remainingPrincipal - principalPaid)
    let installments := loan.paidInstallments + 1
    let baseDate := loan.nextDueDate.getD loan.createdAt
    let nextDue := addOneMonthJS baseDate
    Except.ok { loan with
      remainingPrincipal := newPrincipal
      paidInstallments := installments
      nextDueDate := if loan.tenure ≤ installments then none else some nextDue
      status := if loan.tenure ≤ installments then LoanStatus.completed
                else LoanStatus.active }

/-- The two validity errors of the design; only `invalidTerms` is raised by
the creation path modelled here. -/
inductive TermsError where
  | invalidTerms
  deriving DecidableEq, Repr

/-- The numeric path of `addBorrower` (Dashboard.tsx lines 610-623): reject
with the "Invalid Values" error when
`principal <= 0 || months <= 0 || rate < 0`, otherwise compute the EMI with
`computeEmi`. -/
def addBorrowerCompute (principal rate : ℚ) (months : ℤ) : Except TermsError ℚ :=
  if principal ≤ 0 ∨ months ≤ 0 ∨ rate < 0 then Except.error TermsError.invalidTerms
  else Except.ok (computeEmi principal rate months)

/-- The spec's `computeInstallment` contract, written from the spec's own
words (§4.1) for comparison with the source's `computeEmi`: fail with
`InvalidTermsError` if `tenureMonths ≤ 0`, `principal ≤ 0` or
`annualRatePercent < 0`, else return the interest-free or annuity formula
value. -/
def computeInstallmentSpec (principal rate : ℚ) (tenure : ℤ) : Except TermsError ℚ :=
  if tenure ≤ 0 ∨ principal ≤ 0 ∨ rate < 0 then Except.error TermsError.invalidTerms
  else
    let r := rate / 1200
    if r = 0 then Except.ok (principal / (tenure : ℚ))
    else Except.ok (principal * r * (1 + r) ^ tenure / ((1 + r) ^ tenure - 1))

/-- Modelled from the spec: loan origination itself (the EMI-calculator
form and the backend `POST` that create a loan record) is not in `src/`;
§3 of the spec fixes the fresh snapshot as `remainingPrincipal =
principalAmount`, `paidInstallments = 0`, `nextDueDate = origination date
+ 1 month`, `status = active`, with the installment computed once by the
amortization calculator. -/
def mkFreshLoan (principal rate : ℚ) (tenure : ℤ) (createdAt : Date) : Loan :=
  { tenure := tenure
    interestRate := rate
    emiAmount := computeEmi principal rate tenure
    remainingPrincipal := principal
    paidInstallments := 0
    nextDueDate := some (addOneMonthJS createdAt)
    createdAt := createdAt
    status := LoanStatus.active }

/-- Forget the error of a payment outcome, for chaining. -/
def payOutcome : Except PayError Loan → Option Loan
  | Except.ok l => some l
  | Except.error _ => none

/-- The loan snapshot after `k` successive successful payments, `none` as
soon as one application is rejected. -/
def paySeq (l0 : Loan) : ℕ → Option Loan
  | 0 => some l0
  | k + 1 =>
    match paySeq l0 k with
    | some l => payOutcome (handlePayment l)
    | none => none

/-- The paid-installment count of a payment outcome, when it succeeded. -/
def paidOf : Except PayError Loan → Option ℤ
  | Except.ok l => some l.paidInstallments
  | Except.error _ => none

/-- C1: for every principal > 0, tenure ≥ 1 and annual rate percent,
`computeEmi` returns `principal / tenureMonths` when the monthly rate
`rate/1200` is zero, and
`principal * r * (1+r)^tenure / ((1+r)^tenure - 1)` when `r = rate/1200`
is positive. -/
theorem computeEmi_formula (p rate : ℚ) (n : ℤ) (hp : 0 < p) (hn : 1 ≤ n) :
    (rate / 1200 = 0 → computeEmi p rate n = p / (n : ℚ)) ∧
    (0 < rate / 1200 →
      computeEmi p rate n =
        p * (rate / 1200) * (1 + rate / 1200) ^ n /
          ((1 + rate / 1200) ^ n - 1)) := by
  have hng : ¬ n ≤ 0 := by omega
  have h12 : rate / (12 * 100) = rate / 1200 := by norm_num
  constructor
  · intro h0
    simp only [computeEmi, if_neg hng, h12, if_pos h0]
  · intro hpos
    simp only [computeEmi, if_neg hng, h12, if_neg (ne_of_gt hpos)]

/-- Witness for C1 at principal 3, rate 0, tenure 2: an interest-free EMI
is the straight-line quotient. -/
theorem computeEmi_formula_witness : computeEmi 3 0 2 = 3 / 2 :=
  (computeEmi_formula 3 0 2 (by norm_num) (by norm_num)).1 (by norm_num)

/-- C9: for tenure ≤ 0, `computeEmi` returns 0 rather than raising, and the
result does not depend on the principal or the rate. -/
theorem computeEmi_nonpos_tenure (p rate : ℚ) (n : ℤ) (h : n ≤ 0) :
    computeEmi p rate n = 0 ∧ ∀ q s : ℚ, computeEmi p rate n = computeEmi q s n := by
  refine ⟨?_, fun q s => ?_⟩ <;> simp [computeEmi, if_pos h]

/-- Witness for C9 at principal 5, rate 7, tenure 0. -/
theorem computeEmi_nonpos_tenure_witness : computeEmi 5 7 0 = 0 :=
  (computeEmi_nonpos_tenure 5 7 0 (by norm_num)).1

/-- C10: over exact rational arithmetic the EMI is homogeneous in the
principal: `computeEmi (k * p) rate n = k * computeEmi p rate n` for
rate ≥ 0, tenure ≥ 1 and scalar k ≥ 0. -/
theorem computeEmi_homogeneous (k p rate : ℚ) (n : ℤ) (hr : 0 ≤ rate)
    (hn : 1 ≤ n) (hk : 0 ≤ k) :
    computeEmi (k * p) rate n = k * computeEmi p rate n := by
  have hng : ¬ n ≤ 0 := by omega
  by_cases h0 : rate / (12 * 100) = 0
  · simp only [computeEmi, if_neg hng, if_pos h0]
    rw [mul_div_assoc]
  · simp only [computeEmi, if_neg hng, if_neg h0]
    rw [show k * p * (rate / (12 * 100)) * (1 + rate / (12 * 100)) ^ n
        = k * (p * (rate / (12 * 100)) * (1 + rate / (12 * 100)) ^ n) from by ring,
      mul_div_assoc]

/-- Witness for C10 at k = 2, principal 3, rate 0, tenure 2. -/
theorem computeEmi_homogeneous_witness : computeEmi (2 * 3) 0 2 = 2 * computeEmi 3 0 2 :=
  computeEmi_homogeneous 2 3 0 2 (by norm_num) (by norm_num) (by norm_num)

/-- When the guard passes (`paidInstallments < tenure`), `handlePayment`
returns the updated snapshot. -/
theorem handlePayment_ok_of_lt {l : Loan} (h : l.paidInstallments < l.tenure) :
    handlePayment l = Except.ok
      { l with
        remainingPrincipal := max 0 (l.remainingPrincipal -
          (l.emiAmount - l.remainingPrincipal * (l.interestRate / 1200)))
        paidInstallments := l.paidInstallments + 1
        nextDueDate := if l.tenure ≤ l.paidInstallments + 1 then none
          else some (addOneMonthJS (l.nextDueDate.getD l.createdAt))
        status := if l.tenure ≤ l.paidInstallments + 1 then LoanStatus.completed
          else LoanStatus.active } := by
  simp only [handlePayment, if_neg (not_le.mpr h)]

/-- Conversely, a successful `handlePayment` means the guard passed and the
result is exactly the updated snapshot. -/
theorem handlePayment_ok_elim {l l' : Loan} (h : handlePayment l = Except.ok l') :
    l.paidInstallments < l.tenure ∧
    l' = { l with
        remainingPrincipal := max 0 (l.remainingPrincipal -
          (l.emiAmount - l.remainingPrincipal * (l.interestRate / 1200)))
        paidInstallments := l.paidInstallments + 1
        nextDueDate := if l.tenure ≤ l.paidInstallments + 1 then none
          else some (addOneMonthJS (l.nextDueDate.getD l.createdAt))
        status := if l.tenure ≤ l.paidInstallments + 1 then LoanStatus.completed
          else LoanStatus.active } := by
  by_cases hg : l.tenure ≤ l.paidInstallments
  · rw [handlePayment, if_pos hg] at h
    exact absurd h (by simp)
  · have hlt : l.paidInstallments < l.tenure := not_le.mp hg
    rw [handlePayment_ok_of_lt hlt] at h
    exact ⟨hlt, (Except.ok.inj h).symm⟩

/-- C2: every successfully applied payment computes the interest component
`p * r`, the principal component `E - p * r`, and sets the new remaining
principal to `max 0 (p - (E - p * r))`, with `r` the monthly rate
`interestRate / 1200` and `E` the fixed installment. -/
theorem payment_split (l l' : Loan) (h : handlePayment l = Except.ok l') :
    l'.remainingPrincipal =
      max 0 (l.remainingPrincipal -
        (l.emiAmount - l.remainingPrincipal * (l.interestRate / 1200))) := by
  obtain ⟨-, rfl⟩ := handlePayment_ok_elim h
  rfl

/-- An active two-month interest-free loan before a payment. -/
def exLoanC2 : Loan :=
  { tenure := 2, interestRate := 0, emiAmount := 5, remainingPrincipal := 8,
    paidInstallments := 0, nextDueDate := none, createdAt := ⟨2024, 1, 1⟩,
    status := LoanStatus.active }

/-- The snapshot `handlePayment` produces from `exLoanC2`. -/
def exLoanC2After : Loan :=
  { tenure := 2, interestRate := 0, emiAmount := 5, remainingPrincipal := 3,
    paidInstallments := 1, nextDueDate := some ⟨2024, 2, 1⟩,
    createdAt := ⟨2024, 1, 1⟩, status := LoanStatus.active }

/-- Witness for C2 on the concrete loan `exLoanC2`. -/
theorem payment_split_witness :
    exLoanC2After.remainingPrincipal =
      max 0 (exLoanC2.remainingPrincipal -
        (exLoanC2.emiAmount -
          exLoanC2.remainingPrincipal * (exLoanC2.interestRate / 1200))) :=
  payment_split exLoanC2 exLoanC2After (by
    norm_num [handlePayment, exLoanC2, exLoanC2After, addOneMonthJS, monthSucc,
      daysInMonth, isLeapYear])

/-- C8: the guard rejects as already completed exactly when
`paidInstallments ≥ tenure`; the status field does not influence the
outcome at all; and a loan whose status is `completed` but whose count is
below its tenure is still processed as an ordinary payment. -/
theorem payment_guard_by_count (l : Loan) :
    (handlePayment l = Except.error PayError.loanAlreadyCompleted ↔
      l.tenure ≤ l.paidInstallments) ∧
    (∀ s, handlePayment { l with status := s } = handlePayment l) ∧
    (l.status = LoanStatus.completed → l.paidInstallments < l.tenure →
      paidOf (handlePayment l) = some (l.paidInstallments + 1)) := by
  refine ⟨⟨fun he => ?_, fun hg => ?_⟩, fun s => ?_, fun _ hlt => ?_⟩
  · by_contra hg
    rw [handlePayment_ok_of_lt (not_le.mp hg)] at he
    exact absurd he (by simp)
  · rw [handlePayment, if_pos hg]
  · cases l
    rfl
  · rw [handlePayment_ok_of_lt hlt]
    rfl

/-- A loan marked completed whose installment count is still below its
tenure. -/
def exLoanC8 : Loan :=
  { tenure := 12, interestRate := 0, emiAmount := 10, remainingPrincipal := 100,
    paidInstallments := 0, nextDueDate := some ⟨2024, 2, 1⟩,
    createdAt := ⟨2024, 1, 1⟩, status := LoanStatus.completed }

/-- Witness for C8: the completed-status loan `exLoanC8` with count 0 < 12
is processed, its count advancing to 1. -/
theorem payment_guard_by_count_witness :
    paidOf (handlePayment exLoanC8) = some (exLoanC8.paidInstallments + 1) :=
  (payment_guard_by_count exLoanC8).2.2 rfl (by decide)

/-- C6 counterexample: `exLoanC8` has status completed, yet the payment
attempt succeeds and changes the state (the remaining principal drops from
100 to 90), instead of failing with the already-completed error. -/
theorem completed_payment_counterexample :
    exLoanC8.status = LoanStatus.completed ∧
    handlePayment exLoanC8 = Except.ok
      { tenure := 12, interestRate := 0, emiAmount := 10,
        remainingPrincipal := 90, paidInstallments := 1,
        nextDueDate := some ⟨2024, 3, 1⟩, createdAt := ⟨2024, 1, 1⟩,
        status := LoanStatus.active } := by
  refine ⟨rfl, ?_⟩
  norm_num [handlePayment, exLoanC8, addOneMonthJS, monthSucc, daysInMonth,
    isLeapYear]

/-- C6 amended: the terminal-state rejection is keyed to the installment
count, not the status flag: whenever `paidInstallments ≥ tenure` (which
holds for every loan the payment flow itself has marked completed), the
payment attempt fails with the already-completed error and no new snapshot
is produced, so the state is untouched. -/
theorem completed_by_count_rejected (l : Loan) (h : l.tenure ≤ l.paidInstallments) :
    handlePayment l = Except.error PayError.loanAlreadyCompleted := by
  rw [handlePayment, if_pos h]

/-- A fully paid loan: count has reached tenure. -/
def exLoanC6 : Loan :=
  { tenure := 12, interestRate := 0, emiAmount := 10, remainingPrincipal := 0,
    paidInstallments := 12, nextDueDate := none, createdAt := ⟨2024, 1, 1⟩,
    status := LoanStatus.completed }

/-- Witness for the amended C6 on the fully paid loan `exLoanC6`. -/
theorem completed_by_count_rejected_witness :
    handlePayment exLoanC6 = Except.error PayError.loanAlreadyCompleted :=
  completed_by_count_rejected exLoanC6 (by decide)

/-- An active three-month loan whose next due date is 2024-01-31. -/
def exLoanC4 : Loan :=
  { tenure := 3, interestRate := 0, emiAmount := 10, remainingPrincipal := 100,
    paidInstallments := 0, nextDueDate := some ⟨2024, 1, 31⟩,
    createdAt := ⟨2024, 1, 1⟩, status := LoanStatus.active }

/-- The snapshot `handlePayment` produces from `exLoanC4`. -/
def exLoanC4After : Loan :=
  { tenure := 3, interestRate := 0, emiAmount := 10, remainingPrincipal := 90,
    paidInstallments := 1, nextDueDate := some ⟨2024, 3, 2⟩,
    createdAt := ⟨2024, 1, 1⟩, status := LoanStatus.active }

/-- C4 counterexample: one payment on a loan with nextDueDate 2024-01-31
yields nextDueDate 2024-03-02 (JavaScript setMonth day overflow), not the
claimed 2024-02-29. -/
theorem nextDueDate_counterexample :
    exLoanC4.nextDueDate = some ⟨2024, 1, 31⟩ ∧
    handlePayment exLoanC4 = Except.ok exLoanC4After ∧
    exLoanC4After.nextDueDate = some ⟨2024, 3, 2⟩ ∧
    exLoanC4After.nextDueDate ≠ some ⟨2024, 2, 29⟩ := by
  refine ⟨rfl, ?_, rfl, by decide⟩
  norm_num [handlePayment, exLoanC4, exLoanC4After, addOneMonthJS, monthSucc,
    daysInMonth, isLeapYear]

/-- C4 amended: for every non-final payment the next due date is the
previous next due date (or `createdAt` when none was set) advanced one
month with JavaScript `setMonth` semantics: the day-of-month is preserved
when the target month has that day, and otherwise the date overflows into
the month after by the excess days — so 2024-01-31 advances to 2024-03-02,
not 2024-02-29. -/
theorem nextDueDate_advance (l l' : Loan) (hfin : l.paidInstallments + 1 < l.tenure)
    (h : handlePayment l = Except.ok l') :
    l'.nextDueDate = some (addOneMonthJS (l.nextDueDate.getD l.createdAt)) ∧
    (∀ d : Date,
      d.day ≤ daysInMonth (monthSucc d.year d.month).1 (monthSucc d.year d.month).2 →
      addOneMonthJS d =
        ⟨(monthSucc d.year d.month).1, (monthSucc d.year d.month).2, d.day⟩) ∧
    addOneMonthJS ⟨2024, 1, 31⟩ = ⟨2024, 3, 2⟩ := by
  obtain ⟨hlt, rfl⟩ := handlePayment_ok_elim h
  refine ⟨?_, fun d hd => ?_, by decide⟩
  · show (if l.tenure ≤ l.paidInstallments + 1 then none
      else some (addOneMonthJS (l.nextDueDate.getD l.createdAt))) = _
    rw [if_neg (by omega)]
  · simp only [addOneMonthJS, if_pos hd]

/-- Witness for the amended C4 on the concrete loan `exLoanC4`. -/
theorem nextDueDate_advance_witness :
    exLoanC4After.nextDueDate =
      some (addOneMonthJS (exLoanC4.nextDueDate.getD exLoanC4.createdAt)) :=
  (nextDueDate_advance exLoanC4 exLoanC4After (by decide) (by
    norm_num [handlePayment, exLoanC4, exLoanC4After, addOneMonthJS, monthSucc,
      daysInMonth, isLeapYear])).1

/-- C5 counterexample: at tenure 0 the source's `computeEmi` returns the
value 0 where the spec's `computeInstallment` contract demands an
`InvalidTermsError` failure. -/
theorem computeInstallment_counterexample :
    computeEmi 100 5 0 = 0 ∧
    computeInstallmentSpec 100 5 0 = Except.error TermsError.invalidTerms ∧
    Except.ok (computeEmi 100 5 0) ≠ computeInstallmentSpec 100 5 0 := by
  refine ⟨rfl, rfl, fun h => Except.noConfusion h⟩

/-- C5 amended: `computeEmi` itself never fails (tenure ≤ 0 just yields 0);
the `InvalidTermsError` validation is performed by the caller
`addBorrower`, which rejects exactly when tenure ≤ 0, principal ≤ 0 or
rate < 0, and otherwise returns the EMI computed by `computeEmi`. -/
theorem addBorrower_validation (p rate : ℚ) (n : ℤ) :
    (addBorrowerCompute p rate n = Except.error TermsError.invalidTerms ↔
      n ≤ 0 ∨ p ≤ 0 ∨ rate < 0) ∧
    (¬ (n ≤ 0 ∨ p ≤ 0 ∨ rate < 0) →
      addBorrowerCompute p rate n = Except.ok (computeEmi p rate n)) := by
  unfold addBorrowerCompute
  refine ⟨⟨fun he => ?_, fun hc => ?_⟩, fun hc => ?_⟩
  · by_contra hc
    rw [if_neg (by tauto)] at he
    exact absurd he (by simp)
  · rw [if_pos (by tauto)]
  · rw [if_neg (by tauto)]

/-- Witness for the amended C5 at principal 100, rate 12, tenure 12. -/
theorem addBorrower_validation_witness :
    addBorrowerCompute 100 12 12 = Except.ok (computeEmi 100 12 12) :=
  (addBorrower_validation 100 12 12).2 (by norm_num)

/-- Count, tenure and status bookkeeping along a run of successful payments
from a fresh loan: after `k ≤ n` payments the count is `k`, the tenure is
unchanged, and the status is completed exactly when `n ≤ k`. -/
theorem paySeq_fresh_shape (P rate : ℚ) (n : ℤ) (d : Date) (hn : 1 ≤ n) :
    ∀ k : ℕ, (k : ℤ) ≤ n →
      ∃ l, paySeq (mkFreshLoan P rate n d) k = some l ∧
        l.paidInstallments = (k : ℤ) ∧ l.tenure = n ∧
        l.status = (if n ≤ (k : ℤ) then LoanStatus.completed else LoanStatus.active) := by
  intro k
  induction k with
  | zero =>
    intro _
    exact ⟨mkFreshLoan P rate n d, rfl, rfl, rfl, by rw [if_neg (by omega)]; rfl⟩
  | succ k ih =>
    intro hk1
    have hk1' : ((k : ℤ) + 1) ≤ n := by push_cast at hk1; omega
    obtain ⟨l, hseq, hpaid, hten, hstat⟩ := ih (by omega)
    have hlt : l.paidInstallments < l.tenure := by omega
    refine ⟨{ l with
        remainingPrincipal := max 0 (l.remainingPrincipal -
          (l.emiAmount - l.remainingPrincipal * (l.interestRate / 1200)))
        paidInstallments := l.paidInstallments + 1
        nextDueDate := if l.tenure ≤ l.paidInstallments + 1 then none
          else some (addOneMonthJS (l.nextDueDate.getD l.createdAt))
        status := if l.tenure ≤ l.paidInstallments + 1 then LoanStatus.completed
          else LoanStatus.active }, ?_, ?_, ?_, ?_⟩
    · simp only [paySeq, hseq, handlePayment_ok_of_lt hlt, payOutcome]
    · show l.paidInstallments + 1 = ((k + 1 : ℕ) : ℤ)
      push_cast
      omega
    · exact hten
    · show (if l.tenure ≤ l.paidInstallments + 1 then LoanStatus.completed
        else LoanStatus.active) = _
      rw [hpaid, hten]
      by_cases hc : n ≤ (k : ℤ) + 1
      · rw [if_pos hc, if_pos (by push_cast; omega)]
      · rw [if_neg hc, if_neg (by push_cast; omega)]

/-- C3: a successful payment increments the count and marks the loan
completed exactly when the new count reaches the tenure; consequently a
fresh loan of tenure n ≥ 1 paid k ≤ n times in sequence is completed after
the n-th payment and never before, independently of the residual
principal. -/
theorem loan_completion :
    (∀ l l', handlePayment l = Except.ok l' →
      l'.paidInstallments = l.paidInstallments + 1 ∧
      (l'.status = LoanStatus.completed ↔ l.tenure ≤ l.paidInstallments + 1)) ∧
    (∀ (P rate : ℚ) (n : ℤ) (d : Date), 1 ≤ n → ∀ k : ℕ, (k : ℤ) ≤ n →
      ∃ l, paySeq (mkFreshLoan P rate n d) k = some l ∧
        (l.status = LoanStatus.completed ↔ (k : ℤ) = n)) := by
  constructor
  · intro l l' h
    obtain ⟨hlt, rfl⟩ := handlePayment_ok_elim h
    refine ⟨rfl, ?_⟩
    show (if l.tenure ≤ l.paidInstallments + 1 then LoanStatus.completed
      else LoanStatus.active) = LoanStatus.completed ↔ _
    by_cases hc : l.tenure ≤ l.paidInstallments + 1
    · simpa [if_pos hc] using hc
    · simp [if_neg hc, hc]
  · intro P rate n d hn k hk
    obtain ⟨l, hseq, hpaid, hten, hstat⟩ := paySeq_fresh_shape P rate n d hn k hk
    refine ⟨l, hseq, ?_⟩
    rw [hstat]
    by_cases hc : n ≤ (k : ℤ)
    · rw [if_pos hc]
      exact ⟨fun _ => by omega, fun _ => rfl⟩
    · rw [if_neg hc]
      constructor
      · intro habs
        exact absurd habs (by simp)
      · intro habs
        omega

/-- Witness for C3: the payment on `exLoanC2` advances the count from 0 to
1, short of the tenure 2, so the loan is not yet completed. -/
theorem loan_completion_witness :
    exLoanC2After.paidInstallments = exLoanC2.paidInstallments + 1 ∧
    (exLoanC2After.status = LoanStatus.completed ↔
      exLoanC2.tenure ≤ exLoanC2.paidInstallments + 1) :=
  loan_completion.1 exLoanC2 exLoanC2After (by
    norm_num [handlePayment, exLoanC2, exLoanC2After, addOneMonthJS, monthSucc,
      daysInMonth, isLeapYear])

/-- Solvency invariant kept along every run of payments: the rate is
non-negative, the balance is non-negative, and one month's interest on the
balance never exceeds the fixed installment. -/
def GoodLoan (l : Loan) : Prop :=
  0 ≤ l.interestRate ∧ 0 ≤ l.remainingPrincipal ∧
    l.remainingPrincipal * (l.interestRate / 1200) ≤ l.emiAmount

/-- One successful payment preserves `GoodLoan` and does not increase the
remaining principal. -/
theorem goodLoan_step {l l' : Loan} (hg : GoodLoan l)
    (h : handlePayment l = Except.ok l') :
    GoodLoan l' ∧ l'.remainingPrincipal ≤ l.remainingPrincipal := by
  obtain ⟨hr, hp0, hpr⟩ := hg
  obtain ⟨-, rfl⟩ := handlePayment_ok_elim h
  have hr0 : 0 ≤ l.interestRate / 1200 := div_nonneg hr (by norm_num)
  have hle : max 0 (l.remainingPrincipal -
      (l.emiAmount - l.remainingPrincipal * (l.interestRate / 1200))) ≤
      l.remainingPrincipal := max_le hp0 (by linarith)
  refine ⟨⟨hr, le_max_left _ _, ?_⟩, hle⟩
  show max 0 (l.remainingPrincipal -
      (l.emiAmount - l.remainingPrincipal * (l.interestRate / 1200))) *
      (l.interestRate / 1200) ≤ l.emiAmount
  exact le_trans (mul_le_mul_of_nonneg_right hle hr0) hpr

/-- One month of interest on the full principal never exceeds the EMI the
amortization formula fixes for it (principal > 0, rate ≥ 0, tenure ≥ 1). -/
theorem interest_le_computeEmi (P rate : ℚ) (n : ℤ) (hP : 0 < P) (hr : 0 ≤ rate)
    (hn : 1 ≤ n) : P * (rate / 1200) ≤ computeEmi P rate n := by
  have hng : ¬ n ≤ 0 := by omega
  have h12 : rate / 1200 = rate / (12 * 100) := by norm_num
  rw [h12]
  simp only [computeEmi, if_neg hng]
  by_cases h0 : rate / (12 * 100) = 0
  · rw [if_pos h0, h0, mul_zero]
    exact div_nonneg hP.le (by exact_mod_cast (by omega : (0 : ℤ) ≤ n))
  · rw [if_neg h0]
    have hrpos : 0 < rate / (12 * 100) :=
      lt_of_le_of_ne (div_nonneg hr (by norm_num)) (Ne.symm h0)
    have hq : (1 : ℚ) < (1 + rate / (12 * 100)) ^ n :=
      one_lt_zpow₀ (by linarith) (by omega)
    rw [le_div_iff₀ (by linarith : (0 : ℚ) < (1 + rate / (12 * 100)) ^ n - 1)]
    nlinarith [mul_pos hP hrpos]

/-- `GoodLoan` holds of every snapshot reachable by successful payments
from a fresh loan with positive principal, non-negative rate and tenure
at least one. -/
theorem paySeq_goodLoan (P rate : ℚ) (n : ℤ) (d : Date) (hP : 0 < P)
    (hr : 0 ≤ rate) (hn : 1 ≤ n) :
    ∀ (k : ℕ) (l : Loan), paySeq (mkFreshLoan P rate n d) k = some l →
      GoodLoan l := by
  intro k
  induction k with
  | zero =>
    intro l hl
    obtain rfl : mkFreshLoan P rate n d = l := Option.some.inj hl
    exact ⟨hr, hP.le, interest_le_computeEmi P rate n hP hr hn⟩
  | succ k ih =>
    intro l hl
    rw [paySeq] at hl
    cases hx : paySeq (mkFreshLoan P rate n d) k with
    | none =>
      rw [hx] at hl
      exact absurd (show (none : Option Loan) = some l from hl) (by simp)
    | some x =>
      rw [hx] at hl
      have hl' : payOutcome (handlePayment x) = some l := hl
      cases he : handlePayment x with
      | error e =>
        rw [he] at hl'
        exact absurd hl' (by simp [payOutcome])
      | ok y =>
        rw [he] at hl'
        obtain rfl : y = l := Option.some.inj hl'
        exact (goodLoan_step (ih x hx) he).1

/-- C7: along every sequence of successful payments from a fresh loan
(principal > 0, rate ≥ 0, tenure ≥ 1), every reachable remaining principal
is non-negative, and each further successful payment does not increase
it. -/
theorem remainingPrincipal_monotone (P rate : ℚ) (n : ℤ) (d : Date)
    (hP : 0 < P) (hr : 0 ≤ rate) (hn : 1 ≤ n) :
    ∀ (k : ℕ) (l : Loan), paySeq (mkFreshLoan P rate n d) k = some l →
      0 ≤ l.remainingPrincipal ∧
      ∀ l', handlePayment l = Except.ok l' →
        l'.remainingPrincipal ≤ l.remainingPrincipal := by
  intro k l hl
  have hg := paySeq_goodLoan P rate n d hP hr hn k l hl
  exact ⟨hg.2.1, fun l' h => (goodLoan_step hg h).2⟩

/-- Witness for C7: one payment into a fresh 10-unit interest-free
two-month loan leaves a non-negative balance. -/
theorem remainingPrincipal_monotone_witness :
    0 ≤ (mkFreshLoan 10 0 2 ⟨2024, 1, 1⟩).remainingPrincipal :=
  (remainingPrincipal_monotone 10 0 2 ⟨2024, 1, 1⟩ (by norm_num) le_rfl
    (by norm_num) 0 (mkFreshLoan 10 0 2 ⟨2024, 1, 1⟩) rfl).1

end ShareData
